import Mathlib

/-!
Shallow embedding of the Flashcard-Study-App-with-Pomodoro-Timer repository.

The data model and the state-transition functions below are translated from
the TypeScript source:

* `src/src/components/FlashcardDeck.tsx` — the study-session deck engine
  (`nextCard`, `previousCard`, `markAnswer`, `resetQuiz`, the completion
  accuracy computation and the Shuffle & Restart button handler);
* `src/src/components/PomodoroTimer.tsx` — the Pomodoro timer state machine
  (`startTimer`, `pauseTimer`, `handleTimerComplete`);
* the App shell (`deleteTopic`, `addTopic`, `addFlashcard`,
  `updateFlashcard`, `updateTopic`, `loadSharedTopic`, the shared-topic URL
  decode path) and the edit-topic modal (`handleSaveTopicDetails`).

Modelling conventions:

* JavaScript `Date` values only ever flow through `toDateString()` equality
  comparisons or are stored opaquely, so calendar days / timestamps are
  modelled as integers; `Date.now().toString()` identifier generation is
  modelled by explicit `String` parameters (`now`, `idGen`), since the code
  takes whatever the clock/RNG produces.
* React `useState` component state is collected into one record per
  component (`DeckState`, `PomoState`, `AppState`); a sequence of `setX`
  calls inside one handler becomes one record update.
* `setTimeout` callbacks scheduled by `markAnswer` are modelled as entries
  in a `pendingTimers` queue.  A scheduled callback closes over the render
  that created it, so each entry snapshots the values the closure captured
  (`currentIndex`, `displayCards.length`, `autoAdvanceTimer`); firing the
  timer replays `nextCard` with those captured values against the current
  state, exactly as the stale closure would.
* The `onUpdateCard` callback the deck invokes is recorded in
  `emittedUpdates` (the App applies it via `updateFlashcard`).
-/

/-- `difficulty?: 'easy' | 'medium' | 'hard'` -/
inductive Difficulty
  | easy
  | medium
  | hard
deriving DecidableEq

/-- The `Flashcard` interface (App.tsx / FlashcardDeck.tsx).  Optional
TypeScript fields become `Option`; `lastReviewed : Date` is an opaque
timestamp, modelled as `Int`. -/
structure Card where
  id : String
  question : String
  answer : String
  subject : String
  difficulty : Option Difficulty
  lastReviewed : Option Int
  correctCount : Option Nat
  incorrectCount : Option Nat
deriving DecidableEq

/-- The `Topic` interface (App.tsx). `createdAt : Date` modelled as `Int`. -/
structure Topic where
  id : String
  name : String
  color : String
  icon : String
  createdAt : Int
  isPublic : Option Bool
deriving DecidableEq

/-- The deck's `quizScore` state: `{ correct, incorrect }`. -/
structure QuizScore where
  correct : Nat
  incorrect : Nat
deriving DecidableEq

/-- The `settings` record of the App shell. -/
structure Settings where
  autoFlip : Bool
  autoFlipTimer : Nat
  pomodoroWork : Nat
  pomodoroBreak : Nat
  longBreak : Nat
  sessionsUntilLongBreak : Nat
  soundEnabled : Bool
  shuffleCards : Bool
  swipeEnabled : Bool
deriving DecidableEq

/-- A pending `setTimeout(() => nextCard(), 1000)` scheduled by
`markAnswer`.  The callback closes over the scheduling render, so the entry
records the captured `currentIndex`, `displayCards.length` and
`autoAdvanceTimer`. -/
structure TimerEntry where
  id : Nat
  snapIndex : Nat
  snapLen : Nat
  snapTimer : Option Nat
deriving DecidableEq

/-- The component state of `FlashcardDeck` plus the queue of scheduled
timeouts and the log of `onUpdateCard` calls. -/
structure DeckState where
  displayCards : List Card
  currentIndex : Nat
  isFlipped : Bool
  showAnswer : Bool
  quizScore : QuizScore
  autoAdvanceTimer : Option Nat
  isCompleted : Bool
  pendingTimers : List TimerEntry
  nextTimerId : Nat
  emittedUpdates : List Card
deriving DecidableEq

/-- The `if (autoAdvanceTimer) { clearTimeout(autoAdvanceTimer);
setAutoAdvanceTimer(null); }` prologue shared by `handleFlip`, `nextCard`,
`previousCard` and `resetQuiz` (FlashcardDeck.tsx). -/
def clearAutoAdvance (s : DeckState) : DeckState :=
  match s.autoAdvanceTimer with
  | none => s
  | some h =>
    { s with pendingTimers := s.pendingTimers.filter (fun e => e.id != h),
             autoAdvanceTimer := none }

/-- The body of `nextCard` (FlashcardDeck.tsx lines 199–214), abstracted
over the values the invoking closure captured.  When the handler runs
directly, the captured values are the current ones (see `nextCard`); when a
`setTimeout` callback runs it replays the values of the render that
scheduled it (see `fireTimer`). -/
def nextCardCore (snapIndex snapLen : Nat) (snapTimer : Option Nat) (s : DeckState) : DeckState :=
  let s1 :=
    match snapTimer with
    | none => s
    | some h =>
      { s with pendingTimers := s.pendingTimers.filter (fun e => e.id != h),
               autoAdvanceTimer := none }
  if snapIndex < snapLen - 1 then
    { s1 with currentIndex := snapIndex + 1, isFlipped := false, showAnswer := false }
  else
    { s1 with isCompleted := true }

/-- `nextCard` invoked as a direct event handler. -/
def nextCard (s : DeckState) : DeckState :=
  nextCardCore s.currentIndex s.displayCards.length s.autoAdvanceTimer s

/-- `previousCard` (FlashcardDeck.tsx lines 216–229). -/
def previousCard (s : DeckState) : DeckState :=
  let s1 := clearAutoAdvance s
  if 0 < s1.currentIndex then
    { s1 with currentIndex := s1.currentIndex - 1, isFlipped := false,
              showAnswer := false, isCompleted := false }
  else s1

/-- `markAnswer` (FlashcardDeck.tsx lines 231–252): bumps the card's
counters via `onUpdateCard` (logged in `emittedUpdates`), updates the quiz
tally, and schedules `setTimeout(() => nextCard(), 1000)`.  The returned
timeout handle is discarded by the source — it is *not* stored in
`autoAdvanceTimer` — so the new `TimerEntry` only joins `pendingTimers`. -/
def markAnswer (correct : Bool) (now : Int) (s : DeckState) : DeckState :=
  match s.displayCards[s.currentIndex]? with
  | none => s
  | some card =>
    let updatedCard :=
      { card with
        correctCount := some (card.correctCount.getD 0 + if correct then 1 else 0),
        incorrectCount := some (card.incorrectCount.getD 0 + if correct then 0 else 1),
        lastReviewed := some now }
    { s with
      emittedUpdates := s.emittedUpdates ++ [updatedCard],
      quizScore := { correct := s.quizScore.correct + (if correct then 1 else 0),
                     incorrect := s.quizScore.incorrect + (if correct then 0 else 1) },
      pendingTimers := s.pendingTimers ++
        [⟨s.nextTimerId, s.currentIndex, s.displayCards.length, s.autoAdvanceTimer⟩],
      nextTimerId := s.nextTimerId + 1 }

/-- A scheduled timeout fires: the entry leaves the queue and its callback
(`nextCard` from the scheduling render) runs with the captured values. -/
def fireTimer (tid : Nat) (s : DeckState) : DeckState :=
  match s.pendingTimers.find? (fun e => e.id == tid) with
  | none => s
  | some e =>
    nextCardCore e.snapIndex e.snapLen e.snapTimer
      { s with pendingTimers := s.pendingTimers.filter (fun x => x.id != tid) }

/-- `resetQuiz` (FlashcardDeck.tsx lines 254–264), also `restartDeck`. -/
def resetQuiz (s : DeckState) : DeckState :=
  let s1 := clearAutoAdvance s
  { s1 with currentIndex := 0, isFlipped := false, showAnswer := false,
            quizScore := ⟨0, 0⟩, isCompleted := false }

/-- The "Shuffle & Restart" button handler on the completion screen
(FlashcardDeck.tsx lines 319–331): re-shuffles `flashcards` into
`displayCards` when the shuffle setting is on, then restarts.  The
`[...flashcards].sort(() => Math.random() - 0.5)` call is modelled by the
reordering function `shuffle`. -/
def shuffleAndRestart (flashcards : List Card) (shuffle : List Card → List Card)
    (shuffleCards : Bool) (s : DeckState) : DeckState :=
  resetQuiz (if shuffleCards then { s with displayCards := shuffle flashcards } else s)

/-- JavaScript `Math.round` on a non-negative value: half-up rounding. -/
def jsRound (q : ℚ) : ℤ := ⌊q + 1 / 2⌋

/-- The accuracy computed on the completion screen
(FlashcardDeck.tsx lines 271–274):
`correct + incorrect > 0 ? Math.round((correct / (correct + incorrect)) * 100) : 0`. -/
def completionAccuracy (sc : QuizScore) : ℤ :=
  if 0 < sc.correct + sc.incorrect then
    jsRound (((sc.correct : ℚ) / ((sc.correct : ℚ) + (sc.incorrect : ℚ))) * 100)
  else 0

/-! ## Pomodoro timer (PomodoroTimer.tsx) -/

/-- `type TimerState = 'idle' | 'work' | 'break' | 'longBreak' | 'paused'`
(`break` is a Lean keyword, hence `break_`). -/
inductive TimerState
  | idle
  | work
  | break_
  | longBreak
  | paused
deriving DecidableEq

/-- The `PomodoroStats` interface.  `lastSessionDate` is compared through
`toDateString()` only, so it is modelled as an integer calendar-day
number. -/
structure PomodoroStats where
  completedSessions : Nat
  totalFocusTime : Nat
  streakDays : Nat
  lastSessionDate : Option Int
deriving DecidableEq

/-- The component state of `PomodoroTimer` together with the `stats` the
App passes down and `onUpdateStats` merges back. -/
structure PomoState where
  timerState : TimerState
  timeLeft : Nat
  currentSession : Nat
  stats : PomodoroStats
deriving DecidableEq

/-- `startTimer` (PomodoroTimer.tsx lines 178–186).  Resuming from
`paused` guesses the phase from the remaining time:
`wasInBreak = timeLeft <= Math.max(pomodoroBreak, longBreak) * 60`. -/
def startTimer (stgs : Settings) (s : PomoState) : PomoState :=
  if s.timerState = TimerState.idle then
    { s with timerState := TimerState.work, timeLeft := stgs.pomodoroWork * 60 }
  else if s.timerState = TimerState.paused then
    let wasInBreak := s.timeLeft ≤ (max stgs.pomodoroBreak stgs.longBreak) * 60
    { s with timerState := if wasInBreak then TimerState.break_ else TimerState.work }
  else s

/-- `pauseTimer` (PomodoroTimer.tsx lines 188–190). -/
def pauseTimer (s : PomoState) : PomoState :=
  { s with timerState := TimerState.paused }

/-- `handleTimerComplete` (PomodoroTimer.tsx lines 99–140), state part.
On a work completion the stats update (lines 106–122) runs:
`completedSessions + 1`, `totalFocusTime + pomodoroWork`, and the streak is
kept if the last session was today, incremented if it was exactly
yesterday, and reset to 1 otherwise (including when there is no prior
session); then the next phase is chosen by
`currentSession % sessionsUntilLongBreak === 0`.  On a break completion the
timer returns to a fresh work phase. -/
def handleTimerComplete (stgs : Settings) (today : Int) (s : PomoState) : PomoState :=
  if s.timerState = TimerState.work then
    let newStreakDays :=
      match s.stats.lastSessionDate with
      | some d =>
        if d = today then s.stats.streakDays
        else if d = today - 1 then s.stats.streakDays + 1
        else 1
      | none => 1
    let isLongBreak := s.currentSession % stgs.sessionsUntilLongBreak == 0
    { timerState := if isLongBreak then TimerState.longBreak else TimerState.break_,
      timeLeft := (if isLongBreak then stgs.longBreak else stgs.pomodoroBreak) * 60,
      currentSession := s.currentSession + 1,
      stats := { completedSessions := s.stats.completedSessions + 1,
                 totalFocusTime := s.stats.totalFocusTime + stgs.pomodoroWork,
                 streakDays := newStreakDays,
                 lastSessionDate := some today } }
  else
    { s with timerState := TimerState.work, timeLeft := stgs.pomodoroWork * 60 }

/-! ## App shell (App.tsx) -/

/-- The persisted App-shell state the claims are about. -/
structure AppState where
  topics : List Topic
  flashcards : List Card
  activeTopic : Option String
deriving DecidableEq

/-- `updateFlashcard` (App.tsx): replace the card with the matching id. -/
def updateFlashcard (updatedCard : Card) (s : AppState) : AppState :=
  { s with flashcards :=
      s.flashcards.map (fun card => if card.id == updatedCard.id then updatedCard else card) }

/-- `deleteFlashcard` (App.tsx). -/
def deleteFlashcard (cardId : String) (s : AppState) : AppState :=
  { s with flashcards := s.flashcards.filter (fun card => card.id != cardId) }

/-- `deleteTopic` (App.tsx lines 258–271): drop the topic's cards by
subject, drop the topic by id, and move `activeTopic` to the first
remaining topic (or to none) when the deleted topic was active. -/
def deleteTopic (topicId : String) (s : AppState) : AppState :=
  match s.topics.find? (fun t => t.id == topicId) with
  | none => s
  | some topicToDelete =>
    let remainingTopics := s.topics.filter (fun t => t.id != topicId)
    { topics := remainingTopics,
      flashcards := s.flashcards.filter (fun card => card.subject != topicToDelete.name),
      activeTopic :=
        if s.activeTopic = some topicId then
          match remainingTopics with
          | [] => none
          | t :: _ => some t.id
        else s.activeTopic }

/-- `updateTopic` (App.tsx), specialised to the partial update
`{ name, color, icon }` that `handleSaveTopicDetails` passes. -/
def updateTopic (topicId : String) (name color icon : String) (s : AppState) : AppState :=
  { s with topics :=
      s.topics.map (fun t =>
        if t.id == topicId then { t with name := name, color := color, icon := icon } else t) }

/-- JavaScript `String.prototype.trim`: strip whitespace from both ends
(implemented over the character list so that it evaluates). -/
def jsTrim (s : String) : String :=
  ⟨((s.data.dropWhile Char.isWhitespace).reverse.dropWhile Char.isWhitespace).reverse⟩

/-- The body of the `flashcards.forEach` loop in `handleSaveTopicDetails`
(EditTopicModal): rewrite the card's `subject` to the new name unless it
already matches. -/
def renameStep (newName : String) (st : AppState) (card : Card) : AppState :=
  if card.subject ≠ newName then updateFlashcard { card with subject := newName } st else st

/-- `handleSaveTopicDetails` (EditTopicModal): with a non-empty trimmed
name, update the topic's name/color/icon, then rewrite `subject` on every
card the modal received (the cards whose subject equalled the topic's old
name). -/
def handleSaveTopicDetails (topic : Topic) (cards : List Card)
    (topicName selectedColor selectedIcon : String) (s : AppState) : AppState :=
  if jsTrim topicName = "" then s
  else
    let s1 := updateTopic topic.id (jsTrim topicName) selectedColor selectedIcon s
    cards.foldl (renameStep (jsTrim topicName)) s1

/-- A decoded share payload: `{ topic, flashcards }`. -/
structure SharedData where
  topic : Topic
  flashcards : List Card
deriving DecidableEq

/-- The `sharedData.flashcards.map(card => ({ ...card, id: Date.now().toString()
+ Math.random()..., subject }))` step of `loadSharedTopic`: each card gets
its own generated identifier string (`idGen k` for the k-th card) and the
shared topic's name as subject. -/
def assignIds (idGen : Nat → String) (k : Nat) (subject : String) : List Card → List Card
  | [] => []
  | card :: rest =>
    { card with id := idGen k, subject := subject } :: assignIds idGen (k + 1) subject rest

/-- `loadSharedTopic` (App.tsx lines 219–239): if no topic with the shared
name exists, append the shared topic under a fresh timestamp id (marked
public), make it active, and append its cards under fresh generated ids. -/
def loadSharedTopic (now : String) (idGen : Nat → String) (shared : SharedData)
    (s : AppState) : AppState :=
  match s.topics.find? (fun t => t.name == shared.topic.name) with
  | some _ => s
  | none =>
    let newTopic : Topic := { shared.topic with id := now, isPublic := some true }
    let newCards := assignIds idGen 0 shared.topic.name shared.flashcards
    { topics := s.topics ++ [newTopic],
      flashcards := s.flashcards ++ newCards,
      activeTopic := some newTopic.id }

/-- `defaultColors` (App.tsx line 48). -/
def defaultColors : List String :=
  ["#2563EB", "#10B981", "#FACC15", "#DC2626", "#8B5CF6", "#F59E0B", "#06B6D4", "#EC4899"]

/-- `defaultIcons` (App.tsx line 49). -/
def defaultIcons : List String :=
  ["📚", "🎯", "💡", "🔬", "🎨", "🏃", "🎵", "🌟", "🚀", "⭐", "🎭", "🔥"]

/-- The `Omit<Flashcard, 'id'>` payload the add-flashcard modal passes. -/
structure NewCard where
  question : String
  answer : String
  subject : String
  difficulty : Option Difficulty
deriving DecidableEq

/-- `addTopic` (App.tsx lines 241–250): append a topic under a timestamp
id and make it active. -/
def addTopic (topicId : String) (createdAt : Int) (name color icon : String)
    (s : AppState) : AppState :=
  { s with
    topics := s.topics ++
      [{ id := topicId, name := name, color := color, icon := icon,
         createdAt := createdAt, isPublic := none }],
    activeTopic := some topicId }

/-- `addFlashcard` (App.tsx lines 278–298): append the card with zeroed
counters; if no topic is named after the card's subject, create one, with
color and icon drawn from the default lists at index
`topics.length % list.length`.  (`cardId`/`newTopicId` are the two
`Date.now().toString()` results.) -/
def addFlashcard (cardId newTopicId : String) (now : Int) (newCard : NewCard)
    (s : AppState) : AppState :=
  let card : Card :=
    { id := cardId, question := newCard.question, answer := newCard.answer,
      subject := newCard.subject, difficulty := newCard.difficulty,
      lastReviewed := some now, correctCount := some 0, incorrectCount := some 0 }
  let s1 := { s with flashcards := s.flashcards ++ [card] }
  if (s.topics.find? (fun t => t.name == newCard.subject)).isNone then
    addTopic newTopicId now newCard.subject
      (defaultColors.getD (s.topics.length % defaultColors.length) "")
      (defaultIcons.getD (s.topics.length % defaultIcons.length) "") s1
  else s1

/-! ## Shared-topic URL decoding (App.tsx lines 132–142)

The startup effect reads the `topic` query parameter and runs
`JSON.parse(atob(sharedTopic))` inside `try`/`catch`; a failure of either
step only logs to the console.  `atob` is the WHATWG forgiving-base64
decoder, modelled concretely below; `JSON.parse` plus the shape check is
abstracted as a fallible `jsonParse` parameter. -/

/-- ASCII whitespace stripped by forgiving-base64. -/
def isB64Ws (c : Char) : Bool :=
  c == ' ' || c == '\t' || c == '\n' || c == '\r' || c == '\x0c'

/-- The base64 alphabet value of a character. -/
def b64Val (c : Char) : Option Nat :=
  if 'A' ≤ c ∧ c ≤ 'Z' then some (c.toNat - 65)
  else if 'a' ≤ c ∧ c ≤ 'z' then some (c.toNat - 97 + 26)
  else if '0' ≤ c ∧ c ≤ '9' then some (c.toNat - 48 + 52)
  else if c = '+' then some 62
  else if c = '/' then some 63
  else none

/-- Reassemble 6-bit groups into bytes (4 groups → 3 bytes, with short
final groups of 2 or 3 giving 1 or 2 bytes). -/
def b64Bytes : List Nat → List Nat
  | v0 :: v1 :: v2 :: v3 :: rest =>
    (v0 * 4 + v1 / 16) :: (v1 % 16 * 16 + v2 / 4) :: (v2 % 4 * 64 + v3) :: b64Bytes rest
  | [v0, v1] => [v0 * 4 + v1 / 16]
  | [v0, v1, v2] => [v0 * 4 + v1 / 16, v1 % 16 * 16 + v2 / 4]
  | _ => []

/-- The browser `atob`: strip ASCII whitespace, strip up to two trailing
`=` when the length is a multiple of four, fail when the length is ≡ 1
mod 4 or any character is outside the alphabet, and otherwise decode. -/
def atobDecode (s : String) : Option (List Nat) :=
  let cs0 := s.data.filter (fun c => !isB64Ws c)
  let pad := min (cs0.reverse.takeWhile (fun c => c == '=')).length 2
  let cs := if cs0.length % 4 == 0 then cs0.take (cs0.length - pad) else cs0
  if cs.length % 4 == 1 then none
  else (cs.mapM b64Val).map b64Bytes

/-- The startup shared-topic path: decode the query value and import it,
with any decode failure caught (state is returned unchanged). -/
def handleSharedParam (jsonParse : List Nat → Option SharedData)
    (now : String) (idGen : Nat → String) (sharedTopic : Option String)
    (s : AppState) : AppState :=
  match sharedTopic with
  | none => s
  | some q =>
    match (atobDecode q).bind jsonParse with
    | none => s
    | some decodedData => loadSharedTopic now idGen decodedData s

/-! ## Concrete sample data used to evaluate the model -/

/-- A sample flashcard. -/
def sampleCard (i : String) : Card :=
  { id := i, question := "q", answer := "a", subject := "T",
    difficulty := none, lastReviewed := none,
    correctCount := some 0, incorrectCount := some 0 }

/-- A three-card study session standing at the last card with a 2/1 quiz
tally. -/
def sampleDeck : DeckState :=
  { displayCards := [sampleCard "1", sampleCard "2", sampleCard "3"],
    currentIndex := 2, isFlipped := true, showAnswer := true,
    quizScore := ⟨2, 1⟩, autoAdvanceTimer := none, isCompleted := false,
    pendingTimers := [], nextTimerId := 0, emittedUpdates := [] }

/-- A three-card quiz session standing at the middle card with the answer
revealed. -/
def quizDeck : DeckState :=
  { displayCards := [sampleCard "1", sampleCard "2", sampleCard "3"],
    currentIndex := 1, isFlipped := true, showAnswer := true,
    quizScore := ⟨0, 0⟩, autoAdvanceTimer := none, isCompleted := false,
    pendingTimers := [], nextTimerId := 0, emittedUpdates := [] }

/-- The default settings record of the App shell. -/
def defaultSettings : Settings :=
  { autoFlip := false, autoFlipTimer := 5, pomodoroWork := 25,
    pomodoroBreak := 5, longBreak := 15, sessionsUntilLongBreak := 4,
    soundEnabled := true, shuffleCards := false, swipeEnabled := true }

/-- A running work phase with 10 minutes left (600 ≤ max(5, 15) · 60). -/
def midWork : PomoState :=
  { timerState := TimerState.work, timeLeft := 600, currentSession := 1,
    stats := { completedSessions := 0, totalFocusTime := 0, streakDays := 0,
               lastSessionDate := none } }

/-- A running work phase with 2000 seconds left (2000 > max(5, 15) · 60). -/
def earlyWork : PomoState :=
  { timerState := TimerState.work, timeLeft := 2000, currentSession := 1,
    stats := { completedSessions := 0, totalFocusTime := 0, streakDays := 0,
               lastSessionDate := none } }

/-- A work phase whose stats recorded a session on day 9 with a 2-day
streak. -/
def streakWork : PomoState :=
  { timerState := TimerState.work, timeLeft := 1, currentSession := 1,
    stats := { completedSessions := 3, totalFocusTime := 75, streakDays := 2,
               lastSessionDate := some 9 } }

/-- A pre-existing topic whose id is the timestamp string "42". -/
def oldTopic : Topic :=
  { id := "42", name := "Old", color := "#111111", icon := "A",
    createdAt := 0, isPublic := none }

/-- A share payload for a topic named "New" (no name clash with `oldTopic`). -/
def sharedNew : SharedData :=
  { topic := { id := "7", name := "New", color := "#222222", icon := "B",
               createdAt := 0, isPublic := none },
    flashcards := [] }

/-- A sample app state with one topic and two of its cards. -/
def sampleApp : AppState :=
  { topics := [oldTopic],
    flashcards := [{ sampleCard "1" with subject := "Old" },
                   { sampleCard "2" with subject := "Old" }],
    activeTopic := some "42" }

/-- A new-card payload for the unseen subject "Math". -/
def ncMath : NewCard :=
  { question := "q1", answer := "a1", subject := "Math", difficulty := none }

/-! ## Proof-level views of the rename loop

`renameStep` acts on an `AppState`; the two definitions below describe its
effect on the flashcard list alone (`lstep`) and on a single list entry
(`innerUpd`), and are used to reason about the `forEach` fold of
`handleSaveTopicDetails`. -/

/-- What one `updateFlashcard` call of the rename loop does to one entry
of the flashcard list. -/
def innerUpd (newName : String) (x card : Card) : Card :=
  if x.id == card.id then { card with subject := newName } else x

/-- What one `renameStep` does to the flashcard list. -/
def lstep (newName : String) (l : List Card) (card : Card) : List Card :=
  if card.subject ≠ newName then l.map (fun x => innerUpd newName x card) else l

/-! ## Helper lemmas -/

theorem clearAutoAdvance_displayCards (s : DeckState) :
    (clearAutoAdvance s).displayCards = s.displayCards := by
  unfold clearAutoAdvance
  cases s.autoAdvanceTimer <;> rfl

theorem clearAutoAdvance_currentIndex (s : DeckState) :
    (clearAutoAdvance s).currentIndex = s.currentIndex := by
  unfold clearAutoAdvance
  cases s.autoAdvanceTimer <;> rfl

theorem clearAutoAdvance_autoAdvanceTimer (s : DeckState) :
    (clearAutoAdvance s).autoAdvanceTimer = none := by
  unfold clearAutoAdvance
  cases hA : s.autoAdvanceTimer
  · exact hA
  · rfl

theorem clearAutoAdvance_isCompleted (s : DeckState) :
    (clearAutoAdvance s).isCompleted = s.isCompleted := by
  unfold clearAutoAdvance
  cases s.autoAdvanceTimer <;> rfl

theorem nextCard_at_last (s : DeckState) (h : ¬ s.currentIndex < s.displayCards.length - 1) :
    nextCard s = { clearAutoAdvance s with isCompleted := true } := by
  unfold nextCard nextCardCore clearAutoAdvance
  cases s.autoAdvanceTimer <;> simp [h]

theorem set_isCompleted_self (d : DeckState) (h : d.isCompleted = true) :
    ({ d with isCompleted := true } : DeckState) = d := by
  cases d
  simp_all

/-! ## C1: completion of the study session and final accuracy -/

/-- Claim C1: for every non-empty deck, calling `nextCard` while the
current index is the last index puts the session into the completed state
(the index does not move past the last card, and a repeated call changes
nothing further), and the accuracy exposed on the completion screen is 0
when both quiz tallies are zero and otherwise is the half-up-rounded
percentage of correct/(correct+incorrect) — i.e. it differs from
100·correct/(correct+incorrect) by at most 1/2. -/
theorem nextCard_last_completes (s : DeckState)
    (h1 : s.displayCards ≠ [])
    (h2 : s.currentIndex = s.displayCards.length - 1) :
    (nextCard s).isCompleted = true ∧
    (nextCard s).currentIndex = s.currentIndex ∧
    nextCard (nextCard s) = nextCard s ∧
    (s.quizScore.correct + s.quizScore.incorrect = 0 →
      completionAccuracy s.quizScore = 0) ∧
    (0 < s.quizScore.correct + s.quizScore.incorrect →
      |(completionAccuracy s.quizScore : ℚ) -
        ((s.quizScore.correct : ℚ) / ((s.quizScore.correct : ℚ) + (s.quizScore.incorrect : ℚ))) * 100|
        ≤ 1 / 2) := by
  have hlt : ¬ s.currentIndex < s.displayCards.length - 1 := by omega
  have hnc : nextCard s = { clearAutoAdvance s with isCompleted := true } :=
    nextCard_at_last s hlt
  refine ⟨?_, ?_, ?_, ?_, ?_⟩
  · rw [hnc]
  · rw [hnc]
    exact clearAutoAdvance_currentIndex s
  · have hlt2 : ¬ (nextCard s).currentIndex < (nextCard s).displayCards.length - 1 := by
      rw [hnc]
      have hi : ({ clearAutoAdvance s with isCompleted := true } : DeckState).currentIndex
          = s.currentIndex := clearAutoAdvance_currentIndex s
      have hd : ({ clearAutoAdvance s with isCompleted := true } : DeckState).displayCards
          = s.displayCards := clearAutoAdvance_displayCards s
      rw [hi, hd]
      exact hlt
    rw [nextCard_at_last _ hlt2]
    have htimer : (nextCard s).autoAdvanceTimer = none := by
      rw [hnc]
      exact clearAutoAdvance_autoAdvanceTimer s
    have hclear : clearAutoAdvance (nextCard s) = nextCard s := by
      unfold clearAutoAdvance
      rw [htimer]
    rw [hclear]
    apply set_isCompleted_self
    rw [hnc]
  · intro h0
    unfold completionAccuracy
    rw [if_neg (by omega)]
  · intro hpos
    unfold completionAccuracy
    rw [if_pos hpos]
    unfold jsRound
    set x : ℚ := ((s.quizScore.correct : ℚ) / ((s.quizScore.correct : ℚ) + (s.quizScore.incorrect : ℚ))) * 100 with hx
    have hle : ((⌊x + 1 / 2⌋ : ℤ) : ℚ) ≤ x + 1 / 2 := Int.floor_le _
    have hgt : x + 1 / 2 - 1 < ((⌊x + 1 / 2⌋ : ℤ) : ℚ) := Int.sub_one_lt_floor _
    rw [abs_le]
    constructor <;> linarith

/-- Witness for C1 at a concrete three-card session with tally 2/1. -/
theorem nextCard_last_completes_witness :
    (sampleDeck.displayCards ≠ [] ∧
      sampleDeck.currentIndex = sampleDeck.displayCards.length - 1) ∧
    ((nextCard sampleDeck).isCompleted = true ∧
      (nextCard sampleDeck).currentIndex = sampleDeck.currentIndex ∧
      nextCard (nextCard sampleDeck) = nextCard sampleDeck ∧
      (sampleDeck.quizScore.correct + sampleDeck.quizScore.incorrect = 0 →
        completionAccuracy sampleDeck.quizScore = 0) ∧
      (0 < sampleDeck.quizScore.correct + sampleDeck.quizScore.incorrect →
        |(completionAccuracy sampleDeck.quizScore : ℚ) -
          ((sampleDeck.quizScore.correct : ℚ) /
            ((sampleDeck.quizScore.correct : ℚ) + (sampleDeck.quizScore.incorrect : ℚ))) * 100|
          ≤ 1 / 2)) :=
  ⟨⟨by decide, by decide⟩, nextCard_last_completes sampleDeck (by decide) (by decide)⟩

/-! ## C3: stale auto-advance timers survive navigation -/

/-- Claim C3 (refuted — code bug): quiz-mode `markAnswer` schedules a
delayed auto-advance with `setTimeout(() => nextCard(), 1000)` but never
stores the handle in `autoAdvanceTimer` (the only `setAutoAdvanceTimer`
calls in the component pass `null`), so the clearing prologue of
`nextCard`/`previousCard` has nothing to clear.  Concretely: in a
three-card quiz at card index 1, marking the answer correct and then
navigating back with `previousCard` leaves the scheduled timeout pending
(`autoAdvanceTimer` is still `none`, so nothing was cleared), and when it
fires against the new card it replays its captured index and jumps the
session from card 0 to card 2. -/
theorem markAnswer_stale_timer_fires :
    (previousCard (markAnswer true 0 quizDeck)).currentIndex = 0 ∧
    (previousCard (markAnswer true 0 quizDeck)).autoAdvanceTimer = none ∧
    (previousCard (markAnswer true 0 quizDeck)).pendingTimers =
      [⟨0, 1, 3, none⟩] ∧
    (fireTimer 0 (previousCard (markAnswer true 0 quizDeck))).currentIndex = 2 := by
  decide

/-! ## C4: pausing and resuming the Pomodoro timer -/

/-- Counterexample to claim C4: with the default durations (work 25,
break 5, long break 15), pausing a work phase that has 600 seconds left
and resuming does not return to the work state — `startTimer` guesses
`break` because 600 ≤ max(5, 15) · 60. -/
theorem startTimer_resume_counterexample :
    midWork.timerState = TimerState.work ∧
    (startTimer defaultSettings (pauseTimer midWork)).timerState ≠ midWork.timerState := by
  decide

/-- Claim C4 as amended: pausing a running phase and resuming always
preserves the remaining countdown, but the resumed phase is recomputed
from the countdown alone: `break` when `timeLeft ≤ max(pomodoroBreak,
longBreak) · 60`, `work` otherwise.  In particular a resumed timer is
never in the `longBreak` state, and a paused work phase is restored
exactly (the whole state is unchanged) precisely when its remaining time
exceeds `max(pomodoroBreak, longBreak) · 60`. -/
theorem startTimer_resume_heuristic (stgs : Settings) (s : PomoState)
    (h : s.timerState = TimerState.work ∨ s.timerState = TimerState.break_ ∨
      s.timerState = TimerState.longBreak) :
    (startTimer stgs (pauseTimer s)).timeLeft = s.timeLeft ∧
    (startTimer stgs (pauseTimer s)).timerState =
      (if s.timeLeft ≤ (max stgs.pomodoroBreak stgs.longBreak) * 60
        then TimerState.break_ else TimerState.work) ∧
    (startTimer stgs (pauseTimer s)).timerState ≠ TimerState.longBreak ∧
    ((max stgs.pomodoroBreak stgs.longBreak) * 60 < s.timeLeft →
      s.timerState = TimerState.work → startTimer stgs (pauseTimer s) = s) := by
  refine ⟨?_, ?_, ?_, ?_⟩
  · unfold startTimer pauseTimer
    simp only []
    split
    · simp_all
    · split
      · rfl
      · simp_all
  · unfold startTimer pauseTimer
    simp only []
    split
    · simp_all
    · split
      · rfl
      · simp_all
  · unfold startTimer pauseTimer
    simp only []
    split
    · simp_all
    · split
      · split <;> simp
      · simp_all
  · intro hgt hwork
    unfold startTimer pauseTimer
    simp only []
    split
    · simp_all
    · split
      · rw [if_neg (by omega)]
        cases s
        simp_all
      · simp_all

/-- Witness for the amended C4 at a paused work phase with 2000 seconds
left under the default durations. -/
theorem startTimer_resume_heuristic_witness :
    (earlyWork.timerState = TimerState.work ∨ earlyWork.timerState = TimerState.break_ ∨
      earlyWork.timerState = TimerState.longBreak) ∧
    ((startTimer defaultSettings (pauseTimer earlyWork)).timeLeft = earlyWork.timeLeft ∧
      (startTimer defaultSettings (pauseTimer earlyWork)).timerState =
        (if earlyWork.timeLeft ≤ (max defaultSettings.pomodoroBreak defaultSettings.longBreak) * 60
          then TimerState.break_ else TimerState.work) ∧
      (startTimer defaultSettings (pauseTimer earlyWork)).timerState ≠ TimerState.longBreak ∧
      ((max defaultSettings.pomodoroBreak defaultSettings.longBreak) * 60 < earlyWork.timeLeft →
        earlyWork.timerState = TimerState.work →
        startTimer defaultSettings (pauseTimer earlyWork) = earlyWork)) :=
  ⟨Or.inl (by decide),
    startTimer_resume_heuristic defaultSettings earlyWork (Or.inl (by decide))⟩

/-! ## C2: work-completion statistics and the day streak -/

/-- Claim C2: every completion of a Pomodoro work phase increments the
completed-session count by 1 and adds the configured work duration to the
cumulative focus time; the day streak is unchanged when the stored
last-session day is today, incremented by exactly 1 when it is exactly
yesterday, and reset to 1 otherwise (including when there is no prior
session). -/
theorem handleTimerComplete_work_stats (stgs : Settings) (today : ℤ) (s : PomoState)
    (h : s.timerState = TimerState.work) :
    (handleTimerComplete stgs today s).stats.completedSessions =
      s.stats.completedSessions + 1 ∧
    (handleTimerComplete stgs today s).stats.totalFocusTime =
      s.stats.totalFocusTime + stgs.pomodoroWork ∧
    (s.stats.lastSessionDate = some today →
      (handleTimerComplete stgs today s).stats.streakDays = s.stats.streakDays) ∧
    (s.stats.lastSessionDate = some (today - 1) →
      (handleTimerComplete stgs today s).stats.streakDays = s.stats.streakDays + 1) ∧
    (∀ d : ℤ, s.stats.lastSessionDate = some d → d ≠ today → d ≠ today - 1 →
      (handleTimerComplete stgs today s).stats.streakDays = 1) ∧
    (s.stats.lastSessionDate = none →
      (handleTimerComplete stgs today s).stats.streakDays = 1) := by
  unfold handleTimerComplete
  rw [if_pos h]
  refine ⟨rfl, rfl, ?_, ?_, ?_, ?_⟩
  · intro hd
    rw [hd]
    simp
  · intro hd
    rw [hd]
    have hne : today - 1 ≠ today := by omega
    simp [hne]
  · intro d hd hdt hdy
    rw [hd]
    simp [hdt, hdy]
  · intro hd
    rw [hd]

/-- Witness for C2 at a work phase completing on day 10 whose last
recorded session was day 9. -/
theorem handleTimerComplete_work_stats_witness :
    streakWork.timerState = TimerState.work ∧
    ((handleTimerComplete defaultSettings 10 streakWork).stats.completedSessions =
        streakWork.stats.completedSessions + 1 ∧
      (handleTimerComplete defaultSettings 10 streakWork).stats.totalFocusTime =
        streakWork.stats.totalFocusTime + defaultSettings.pomodoroWork ∧
      (streakWork.stats.lastSessionDate = some 10 →
        (handleTimerComplete defaultSettings 10 streakWork).stats.streakDays =
          streakWork.stats.streakDays) ∧
      (streakWork.stats.lastSessionDate = some (10 - 1) →
        (handleTimerComplete defaultSettings 10 streakWork).stats.streakDays =
          streakWork.stats.streakDays + 1) ∧
      (∀ d : ℤ, streakWork.stats.lastSessionDate = some d → d ≠ 10 → d ≠ 10 - 1 →
        (handleTimerComplete defaultSettings 10 streakWork).stats.streakDays = 1) ∧
      (streakWork.stats.lastSessionDate = none →
        (handleTimerComplete defaultSettings 10 streakWork).stats.streakDays = 1)) :=
  ⟨by decide, handleTimerComplete_work_stats defaultSettings 10 streakWork (by decide)⟩

/-! ## C5: deleting a topic -/

/-- Claim C5: for every app state and every existing topic id,
`deleteTopic` removes exactly the topics carrying that id, removes exactly
the flashcards whose subject equals the deleted topic's name, and — when
the deleted topic was active — reassigns the active topic to some
remaining topic, or to none when no topic remains (other active topics are
untouched). -/
theorem deleteTopic_cascades (s : AppState) (topicId : String) (tdel : Topic)
    (h : s.topics.find? (fun t => t.id == topicId) = some tdel) :
    (∀ t : Topic, t ∈ (deleteTopic topicId s).topics ↔
      (t ∈ s.topics ∧ t.id ≠ topicId)) ∧
    (∀ c : Card, c ∈ (deleteTopic topicId s).flashcards ↔
      (c ∈ s.flashcards ∧ c.subject ≠ tdel.name)) ∧
    (s.activeTopic = some topicId →
      ((deleteTopic topicId s).topics = [] ∧ (deleteTopic topicId s).activeTopic = none) ∨
      (∃ t : Topic, t ∈ (deleteTopic topicId s).topics ∧
        (deleteTopic topicId s).activeTopic = some t.id)) ∧
    (s.activeTopic ≠ some topicId →
      (deleteTopic topicId s).activeTopic = s.activeTopic) := by
  unfold deleteTopic
  rw [h]
  refine ⟨?_, ?_, ?_, ?_⟩
  · intro t
    simp [List.mem_filter]
  · intro c
    simp [List.mem_filter]
  · intro hact
    simp only [hact, if_pos]
    cases hrem : s.topics.filter (fun t => t.id != topicId) with
    | nil => exact Or.inl ⟨rfl, by simp⟩
    | cons t rest =>
      exact Or.inr ⟨t, List.mem_cons_self t rest, by simp⟩
  · intro hact
    simp [hact]

/-- Witness for C5: deleting the active topic "42" from `sampleApp`. -/
theorem deleteTopic_cascades_witness :
    sampleApp.topics.find? (fun t => t.id == "42") = some oldTopic ∧
    ((∀ t : Topic, t ∈ (deleteTopic "42" sampleApp).topics ↔
        (t ∈ sampleApp.topics ∧ t.id ≠ "42")) ∧
      (∀ c : Card, c ∈ (deleteTopic "42" sampleApp).flashcards ↔
        (c ∈ sampleApp.flashcards ∧ c.subject ≠ oldTopic.name)) ∧
      (sampleApp.activeTopic = some "42" →
        ((deleteTopic "42" sampleApp).topics = [] ∧
          (deleteTopic "42" sampleApp).activeTopic = none) ∨
        (∃ t : Topic, t ∈ (deleteTopic "42" sampleApp).topics ∧
          (deleteTopic "42" sampleApp).activeTopic = some t.id)) ∧
      (sampleApp.activeTopic ≠ some "42" →
        (deleteTopic "42" sampleApp).activeTopic = sampleApp.activeTopic)) :=
  ⟨by decide, deleteTopic_cascades sampleApp "42" oldTopic (by decide)⟩

/-! ## C6: lemmas about the rename fold -/

theorem renameStep_topics (newName : String) (st : AppState) (card : Card) :
    (renameStep newName st card).topics = st.topics := by
  unfold renameStep
  split <;> rfl

theorem renameStep_flashcards (newName : String) (st : AppState) (card : Card) :
    (renameStep newName st card).flashcards = lstep newName st.flashcards card := by
  unfold renameStep lstep updateFlashcard innerUpd
  split <;> rfl

theorem foldl_renameStep_topics (newName : String) :
    ∀ (cs : List Card) (st : AppState),
      (cs.foldl (renameStep newName) st).topics = st.topics := by
  intro cs
  induction cs with
  | nil => intro st; rfl
  | cons c cs ih =>
    intro st
    rw [List.foldl_cons, ih, renameStep_topics]

theorem foldl_renameStep_flashcards (newName : String) :
    ∀ (cs : List Card) (st : AppState),
      (cs.foldl (renameStep newName) st).flashcards =
        cs.foldl (lstep newName) st.flashcards := by
  intro cs
  induction cs with
  | nil => intro st; rfl
  | cons c cs ih =>
    intro st
    rw [List.foldl_cons, List.foldl_cons, ih, renameStep_flashcards]

theorem foldl_lstep_id (newName : String) (cs : List Card)
    (h : ∀ c ∈ cs, c.subject = newName) :
    ∀ l : List Card, cs.foldl (lstep newName) l = l := by
  induction cs with
  | nil => intro l; rfl
  | cons c cs ih =>
    intro l
    rw [List.foldl_cons]
    have hc : ¬ c.subject ≠ newName := by
      simp [h c (List.mem_cons_self c cs)]
    rw [lstep, if_neg hc]
    exact ih (fun d hd => h d (List.mem_cons_of_mem c hd)) l

theorem foldl_lstep_all (newName : String) (cs : List Card)
    (h : ∀ c ∈ cs, c.subject ≠ newName) :
    ∀ l : List Card,
      cs.foldl (lstep newName) l =
        l.map (fun x => cs.foldl (fun a c => innerUpd newName a c) x) := by
  induction cs with
  | nil =>
    intro l
    simp
  | cons c cs ih =>
    intro l
    rw [List.foldl_cons, lstep, if_pos (h c (List.mem_cons_self c cs)),
      ih (fun d hd => h d (List.mem_cons_of_mem c hd)), List.map_map]
    apply List.map_congr_left
    intro x _
    rw [Function.comp, List.foldl_cons]

theorem foldl_innerUpd_skip (newName : String) (cs : List Card) (x : Card)
    (h : ∀ c ∈ cs, c.id ≠ x.id) :
    cs.foldl (fun a c => innerUpd newName a c) x = x := by
  induction cs with
  | nil => rfl
  | cons c cs ih =>
    rw [List.foldl_cons]
    have hne : (x.id == c.id) = false :=
      beq_eq_false_iff_ne.mpr (Ne.symm (h c (List.mem_cons_self c cs)))
    rw [innerUpd, hne]
    simp only [Bool.false_eq_true, if_false]
    exact ih (fun d hd => h d (List.mem_cons_of_mem c hd))

theorem foldl_innerUpd_hit (newName : String) (cs : List Card)
    (hnd : (cs.map (fun c => c.id)).Nodup) (x : Card) (hx : x ∈ cs) :
    cs.foldl (fun a c => innerUpd newName a c) x = { x with subject := newName } := by
  induction cs with
  | nil => cases hx
  | cons c cs ih =>
    rw [List.map_cons, List.nodup_cons] at hnd
    rw [List.foldl_cons]
    rcases List.mem_cons.mp hx with rfl | hx'
    · have hfirst : innerUpd newName x x = { x with subject := newName } := by
        rw [innerUpd]
        simp
      rw [hfirst]
      apply foldl_innerUpd_skip
      intro d hd
      intro hcontra
      exact hnd.1 (hcontra ▸ List.mem_map_of_mem (fun c => c.id) hd)
    · have hne : (x.id == c.id) = false := by
        apply beq_eq_false_iff_ne.mpr
        intro hcontra
        exact hnd.1 (hcontra ▸ List.mem_map_of_mem (fun c => c.id) hx')
      rw [innerUpd, hne]
      simp only [Bool.false_eq_true, if_false]
      exact ih hnd.2 hx'


/-- Claim C6: saving topic details with a new non-empty (trimmed) name
rewrites `subject` to the new name on exactly the flashcards whose subject
equalled the topic's old name, leaving every other field and every other
card unchanged; the topic itself is renamed, so none of those cards is
orphaned.  (Card ids are assumed pairwise distinct, as produced by the
app's id generation.) -/
theorem handleSaveTopicDetails_renames (s : AppState) (topic : Topic)
    (topicName selectedColor selectedIcon : String)
    (hnodup : (s.flashcards.map (fun c => c.id)).Nodup)
    (hname : jsTrim topicName ≠ "") :
    (handleSaveTopicDetails topic (s.flashcards.filter (fun c => c.subject == topic.name))
        topicName selectedColor selectedIcon s).flashcards =
      s.flashcards.map (fun c =>
        if c.subject = topic.name then { c with subject := jsTrim topicName } else c) ∧
    (∀ c ∈ s.flashcards, c.subject = topic.name →
      ({ c with subject := jsTrim topicName } : Card) ∈
        (handleSaveTopicDetails topic (s.flashcards.filter (fun c => c.subject == topic.name))
          topicName selectedColor selectedIcon s).flashcards) ∧
    (handleSaveTopicDetails topic (s.flashcards.filter (fun c => c.subject == topic.name))
        topicName selectedColor selectedIcon s).topics =
      s.topics.map (fun t =>
        if t.id = topic.id then
          { t with name := jsTrim topicName, color := selectedColor, icon := selectedIcon }
        else t) := by
  have hbase : (handleSaveTopicDetails topic
      (s.flashcards.filter (fun c => c.subject == topic.name))
      topicName selectedColor selectedIcon s).flashcards =
      (s.flashcards.filter (fun c => c.subject == topic.name)).foldl
        (lstep (jsTrim topicName)) s.flashcards := by
    unfold handleSaveTopicDetails
    rw [if_neg hname, foldl_renameStep_flashcards]
    rfl
  have hflash : (handleSaveTopicDetails topic
      (s.flashcards.filter (fun c => c.subject == topic.name))
      topicName selectedColor selectedIcon s).flashcards =
      s.flashcards.map (fun c =>
        if c.subject = topic.name then { c with subject := jsTrim topicName } else c) := by
    rw [hbase]
    by_cases hcase : topic.name = jsTrim topicName
    · rw [foldl_lstep_id (jsTrim topicName) _ (fun c hc => by
        have h2 := (List.mem_filter.mp hc).2
        rw [← hcase]
        exact beq_iff_eq.mp h2)]
      have hid : ∀ c ∈ s.flashcards,
          (if c.subject = topic.name then ({ c with subject := jsTrim topicName } : Card) else c)
            = c := by
        intro c _
        split
        · rename_i hsub
          rw [← hcase, ← hsub]
        · rfl
      rw [List.map_congr_left hid]
      exact (List.map_id' s.flashcards).symm
    · rw [foldl_lstep_all (jsTrim topicName) _ (fun c hc => by
        have h2 := beq_iff_eq.mp (List.mem_filter.mp hc).2
        rw [h2]
        exact hcase)]
      apply List.map_congr_left
      intro x hx
      by_cases hsub : x.subject = topic.name
      · rw [if_pos hsub]
        apply foldl_innerUpd_hit
        · have hsub2 : ((s.flashcards.filter (fun c => c.subject == topic.name)).map
              (fun c => c.id)).Sublist (s.flashcards.map (fun c => c.id)) :=
            (List.filter_sublist s.flashcards).map (fun c => c.id)
          exact hnodup.sublist hsub2
        · exact List.mem_filter.mpr ⟨hx, by simp [hsub]⟩
      · rw [if_neg hsub]
        apply foldl_innerUpd_skip
        intro c hc hid
        have hcsub : c.subject = topic.name := beq_iff_eq.mp (List.mem_filter.mp hc).2
        have hcx : c = x :=
          List.inj_on_of_nodup_map hnodup (List.mem_filter.mp hc).1 hx hid
        exact hsub (hcx ▸ hcsub)
  refine ⟨hflash, ?_, ?_⟩
  · intro c hc hcs
    rw [hflash]
    exact List.mem_map.mpr ⟨c, hc, by rw [if_pos hcs]⟩
  · unfold handleSaveTopicDetails
    rw [if_neg hname, foldl_renameStep_topics]
    unfold updateTopic
    simp only [beq_iff_eq]

/-- Witness for C6: renaming the topic "Old" of `sampleApp` (two cards) to
"Renamed". -/
theorem handleSaveTopicDetails_renames_witness :
    ((sampleApp.flashcards.map (fun c => c.id)).Nodup ∧ jsTrim "Renamed" ≠ "") ∧
    ((handleSaveTopicDetails oldTopic
        (sampleApp.flashcards.filter (fun c => c.subject == oldTopic.name))
        "Renamed" "#333333" "C" sampleApp).flashcards =
      sampleApp.flashcards.map (fun c =>
        if c.subject = oldTopic.name then { c with subject := jsTrim "Renamed" } else c) ∧
    (∀ c ∈ sampleApp.flashcards, c.subject = oldTopic.name →
      ({ c with subject := jsTrim "Renamed" } : Card) ∈
        (handleSaveTopicDetails oldTopic
          (sampleApp.flashcards.filter (fun c => c.subject == oldTopic.name))
          "Renamed" "#333333" "C" sampleApp).flashcards) ∧
    (handleSaveTopicDetails oldTopic
        (sampleApp.flashcards.filter (fun c => c.subject == oldTopic.name))
        "Renamed" "#333333" "C" sampleApp).topics =
      sampleApp.topics.map (fun t =>
        if t.id = oldTopic.id then
          { t with name := jsTrim "Renamed", color := "#333333", icon := "C" }
        else t)) :=
  ⟨⟨by decide, by decide⟩,
    handleSaveTopicDetails_renames sampleApp oldTopic "Renamed" "#333333" "C"
      (by decide) (by decide)⟩

/-! ## C7: importing a shared topic -/

theorem mem_assignIds (idGen : Nat → String) (subject : String) :
    ∀ (l : List Card) (k : Nat) (c : Card),
      c ∈ assignIds idGen k subject l → ∃ j : Nat, c.id = idGen j := by
  intro l
  induction l with
  | nil =>
    intro k c h
    cases h
  | cons d l ih =>
    intro k c h
    rcases List.mem_cons.mp h with rfl | h'
    · exact ⟨k, rfl⟩
    · exact ih (k + 1) c h'

/-- Counterexample to claim C7: the imported topic's id is
`Date.now().toString()` with no check against existing ids, so when an
existing topic already carries that string as its id the import reuses it.
Before the import the topic ids are duplicate-free; afterwards they are
not. -/
theorem loadSharedTopic_counterexample :
    ((⟨[oldTopic], [], none⟩ : AppState).topics.map (fun t => t.id)).Nodup ∧
    ¬ (((loadSharedTopic "42" (fun _ => "x") sharedNew
        ⟨[oldTopic], [], none⟩).topics.map (fun t => t.id)).Nodup) := by
  decide

/-- Claim C7 as amended: when a topic with the shared name already exists
the import is a no-op (nothing is overwritten or modified); otherwise the
existing topics and cards are preserved as a prefix and the imported topic
and cards receive the freshly generated identifier strings — these avoid
every existing identifier whenever the generated strings themselves are
not already in use (which the code does not check). -/
theorem loadSharedTopic_amended (now : String) (idGen : Nat → String)
    (shared : SharedData) (s : AppState) :
    ((∃ t ∈ s.topics, t.name = shared.topic.name) →
      loadSharedTopic now idGen shared s = s) ∧
    ((∀ t ∈ s.topics, t.name ≠ shared.topic.name) →
      (loadSharedTopic now idGen shared s).topics =
        s.topics ++ [{ shared.topic with id := now, isPublic := some true }] ∧
      (loadSharedTopic now idGen shared s).flashcards =
        s.flashcards ++ assignIds idGen 0 shared.topic.name shared.flashcards ∧
      (now ∉ s.topics.map (fun t => t.id) →
        (∀ j : Nat, idGen j ∉ s.flashcards.map (fun c => c.id)) →
        (∀ t ∈ (loadSharedTopic now idGen shared s).topics,
          t.id ∈ s.topics.map (fun t2 => t2.id) → t ∈ s.topics) ∧
        (∀ c ∈ (loadSharedTopic now idGen shared s).flashcards,
          c.id ∈ s.flashcards.map (fun c2 => c2.id) → c ∈ s.flashcards))) := by
  constructor
  · rintro ⟨t, ht, hname⟩
    unfold loadSharedTopic
    cases hfind : s.topics.find? (fun t => t.name == shared.topic.name) with
    | some _ => rfl
    | none =>
      have := List.find?_eq_none.mp hfind t ht
      simp [hname] at this
  · intro hno
    have hfind : s.topics.find? (fun t => t.name == shared.topic.name) = none :=
      List.find?_eq_none.mpr (fun t ht => by simpa using hno t ht)
    have htop : (loadSharedTopic now idGen shared s).topics =
        s.topics ++ [{ shared.topic with id := now, isPublic := some true }] := by
      unfold loadSharedTopic
      rw [hfind]
    have hflash : (loadSharedTopic now idGen shared s).flashcards =
        s.flashcards ++ assignIds idGen 0 shared.topic.name shared.flashcards := by
      unfold loadSharedTopic
      rw [hfind]
    refine ⟨htop, hflash, ?_⟩
    intro hfreshT hfreshC
    constructor
    · intro t htmem hid
      rw [htop] at htmem
      rcases List.mem_append.mp htmem with h1 | h2
      · exact h1
      · have ht2 : t = { shared.topic with id := now, isPublic := some true } := by
          simpa using h2
        rw [ht2] at hid
        exact absurd hid hfreshT
    · intro c hcmem hid
      rw [hflash] at hcmem
      rcases List.mem_append.mp hcmem with h1 | h2
      · exact h1
      · obtain ⟨j, hj⟩ := mem_assignIds idGen shared.topic.name shared.flashcards 0 c h2
        rw [hj] at hid
        exact absurd hid (hfreshC j)

/-- Witness for the amended C7: importing the payload for topic "New"
into `sampleApp` (whose only topic is "Old"). -/
theorem loadSharedTopic_amended_witness :
    (∀ t ∈ sampleApp.topics, t.name ≠ sharedNew.topic.name) ∧
    ((loadSharedTopic "99" (fun _ => "n0") sharedNew sampleApp).topics =
        sampleApp.topics ++ [{ sharedNew.topic with id := "99", isPublic := some true }] ∧
      (loadSharedTopic "99" (fun _ => "n0") sharedNew sampleApp).flashcards =
        sampleApp.flashcards ++
          assignIds (fun _ => "n0") 0 sharedNew.topic.name sharedNew.flashcards ∧
      ("99" ∉ sampleApp.topics.map (fun t => t.id) →
        (∀ j : Nat, (fun _ : Nat => "n0") j ∉ sampleApp.flashcards.map (fun c => c.id)) →
        (∀ t ∈ (loadSharedTopic "99" (fun _ => "n0") sharedNew sampleApp).topics,
          t.id ∈ sampleApp.topics.map (fun t2 => t2.id) → t ∈ sampleApp.topics) ∧
        (∀ c ∈ (loadSharedTopic "99" (fun _ => "n0") sharedNew sampleApp).flashcards,
          c.id ∈ sampleApp.flashcards.map (fun c2 => c2.id) → c ∈ sampleApp.flashcards))) :=
  ⟨by decide,
    (loadSharedTopic_amended "99" (fun _ => "n0") sharedNew sampleApp).2 (by decide)⟩

/-! ## C8: restarting a completed session -/

theorem resetQuiz_fields (s : DeckState) :
    (resetQuiz s).displayCards = s.displayCards ∧
    (resetQuiz s).currentIndex = 0 ∧
    (resetQuiz s).isFlipped = false ∧
    (resetQuiz s).showAnswer = false ∧
    (resetQuiz s).quizScore = ⟨0, 0⟩ ∧
    (resetQuiz s).isCompleted = false := by
  unfold resetQuiz clearAutoAdvance
  cases s.autoAdvanceTimer <;> exact ⟨rfl, rfl, rfl, rfl, rfl, rfl⟩

/-- Claim C8: the completion screen's "Shuffle & Restart" action
re-shuffles the deck (a permutation of the `flashcards` prop) when the
shuffle setting is active; when it is inactive the deck order stays the
original card order (the deck equals the prop whenever shuffling is off);
and in both cases the index, flip/reveal flags, quiz tallies and completed
flag are reset to their initial values. -/
theorem shuffleAndRestart_spec (flashcards : List Card)
    (shuffle : List Card → List Card) (shuffleCards : Bool) (s : DeckState)
    (hperm : List.Perm (shuffle flashcards) flashcards)
    (horder : shuffleCards = false → s.displayCards = flashcards) :
    (shuffleCards = true →
      (shuffleAndRestart flashcards shuffle shuffleCards s).displayCards = shuffle flashcards ∧
      List.Perm (shuffleAndRestart flashcards shuffle shuffleCards s).displayCards flashcards) ∧
    (shuffleCards = false →
      (shuffleAndRestart flashcards shuffle shuffleCards s).displayCards = flashcards) ∧
    (shuffleAndRestart flashcards shuffle shuffleCards s).currentIndex = 0 ∧
    (shuffleAndRestart flashcards shuffle shuffleCards s).isFlipped = false ∧
    (shuffleAndRestart flashcards shuffle shuffleCards s).showAnswer = false ∧
    (shuffleAndRestart flashcards shuffle shuffleCards s).quizScore = ⟨0, 0⟩ ∧
    (shuffleAndRestart flashcards shuffle shuffleCards s).isCompleted = false := by
  unfold shuffleAndRestart
  cases shuffleCards with
  | true =>
    rw [if_pos rfl]
    have hd := (resetQuiz_fields { s with displayCards := shuffle flashcards }).1
    refine ⟨fun _ => ⟨?_, ?_⟩, fun hcontra => absurd hcontra (by simp), ?_, ?_, ?_, ?_, ?_⟩
    · simpa using hd
    · rw [hd]
      exact hperm
    · exact (resetQuiz_fields _).2.1
    · exact (resetQuiz_fields _).2.2.1
    · exact (resetQuiz_fields _).2.2.2.1
    · exact (resetQuiz_fields _).2.2.2.2.1
    · exact (resetQuiz_fields _).2.2.2.2.2
  | false =>
    rw [if_neg (by simp)]
    have hd := (resetQuiz_fields s).1
    refine ⟨fun hcontra => absurd hcontra (by simp), fun _ => ?_, ?_, ?_, ?_, ?_, ?_⟩
    · rw [hd]
      exact horder rfl
    · exact (resetQuiz_fields _).2.1
    · exact (resetQuiz_fields _).2.2.1
    · exact (resetQuiz_fields _).2.2.2.1
    · exact (resetQuiz_fields _).2.2.2.2.1
    · exact (resetQuiz_fields _).2.2.2.2.2

/-- Witness for C8: restarting `sampleDeck` with the shuffle setting on,
the reordering being list reversal. -/
theorem shuffleAndRestart_spec_witness :
    (List.Perm (List.reverse [sampleCard "1", sampleCard "2"]) [sampleCard "1", sampleCard "2"] ∧
      (true = false → sampleDeck.displayCards = [sampleCard "1", sampleCard "2"])) ∧
    ((true = true →
      (shuffleAndRestart [sampleCard "1", sampleCard "2"] List.reverse true sampleDeck).displayCards =
        List.reverse [sampleCard "1", sampleCard "2"] ∧
      List.Perm (shuffleAndRestart [sampleCard "1", sampleCard "2"] List.reverse true
        sampleDeck).displayCards [sampleCard "1", sampleCard "2"]) ∧
    (true = false →
      (shuffleAndRestart [sampleCard "1", sampleCard "2"] List.reverse true sampleDeck).displayCards =
        [sampleCard "1", sampleCard "2"]) ∧
    (shuffleAndRestart [sampleCard "1", sampleCard "2"] List.reverse true sampleDeck).currentIndex = 0 ∧
    (shuffleAndRestart [sampleCard "1", sampleCard "2"] List.reverse true sampleDeck).isFlipped = false ∧
    (shuffleAndRestart [sampleCard "1", sampleCard "2"] List.reverse true sampleDeck).showAnswer = false ∧
    (shuffleAndRestart [sampleCard "1", sampleCard "2"] List.reverse true sampleDeck).quizScore = ⟨0, 0⟩ ∧
    (shuffleAndRestart [sampleCard "1", sampleCard "2"] List.reverse true sampleDeck).isCompleted = false) :=
  ⟨⟨by decide, by decide⟩,
    shuffleAndRestart_spec [sampleCard "1", sampleCard "2"] List.reverse true sampleDeck
      (by decide) (by decide)⟩

/-! ## C9: malformed share payloads are caught -/

/-- Claim C9: for every share-URL query value whose base64 decoding or
JSON parsing fails, the startup path leaves the app state unchanged (the
error branch only logs); and the error branch is actually reachable — the
concrete malformed value "%%" fails base64 decoding. -/
theorem sharedParam_error_ignored (jsonParse : List Nat → Option SharedData)
    (now : String) (idGen : Nat → String) (s : AppState) (q : String)
    (h : (atobDecode q).bind jsonParse = none) :
    handleSharedParam jsonParse now idGen (some q) s = s ∧
    atobDecode "%%" = none := by
  constructor
  · simp only [handleSharedParam, h]
  · decide

/-- Witness for C9: the malformed query value "%%" takes the error branch
for every parser, leaving a concrete state untouched. -/
theorem sharedParam_error_ignored_witness :
    (atobDecode "%%").bind (fun _ => (none : Option SharedData)) = none ∧
    (handleSharedParam (fun _ => (none : Option SharedData)) "0" (fun _ => "0")
        (some "%%") sampleApp = sampleApp ∧
      atobDecode "%%" = none) :=
  ⟨by decide,
    sharedParam_error_ignored (fun _ => (none : Option SharedData)) "0" (fun _ => "0")
      sampleApp "%%" (by decide)⟩

/-! ## C10: adding a flashcard with a fresh subject -/

/-- Claim C10: adding a flashcard whose subject matches no existing
topic's name appends exactly one new topic named after that subject —
with color and icon drawn from the default lists at index
`topics.length % length` — and makes it active; when a topic with that
name already exists, the topic list and active topic are unchanged.  In
both cases the card is appended with zeroed counters and afterwards its
subject equals some topic's name. -/
theorem addFlashcard_creates_topic (cardId newTopicId : String) (now : ℤ)
    (nc : NewCard) (s : AppState) :
    ((∀ t ∈ s.topics, t.name ≠ nc.subject) →
      (addFlashcard cardId newTopicId now nc s).topics =
        s.topics ++
          [{ id := newTopicId, name := nc.subject,
             color := defaultColors.getD (s.topics.length % defaultColors.length) "",
             icon := defaultIcons.getD (s.topics.length % defaultIcons.length) "",
             createdAt := now, isPublic := none }] ∧
      (addFlashcard cardId newTopicId now nc s).activeTopic = some newTopicId) ∧
    ((∃ t ∈ s.topics, t.name = nc.subject) →
      (addFlashcard cardId newTopicId now nc s).topics = s.topics ∧
      (addFlashcard cardId newTopicId now nc s).activeTopic = s.activeTopic) ∧
    (addFlashcard cardId newTopicId now nc s).flashcards =
      s.flashcards ++
        [{ id := cardId, question := nc.question, answer := nc.answer,
           subject := nc.subject, difficulty := nc.difficulty, lastReviewed := some now,
           correctCount := some 0, incorrectCount := some 0 }] ∧
    (∃ t ∈ (addFlashcard cardId newTopicId now nc s).topics, t.name = nc.subject) := by
  cases hfind : s.topics.find? (fun t => t.name == nc.subject) with
  | none =>
    have hnone : (s.topics.find? (fun t => t.name == nc.subject)).isNone = true := by
      rw [hfind]
      rfl
    refine ⟨fun _ => ?_, fun hex => ?_, ?_, ?_⟩
    · unfold addFlashcard
      rw [if_pos hnone]
      exact ⟨rfl, rfl⟩
    · obtain ⟨t, ht, hname⟩ := hex
      have := List.find?_eq_none.mp hfind t ht
      simp [hname] at this
    · unfold addFlashcard
      rw [if_pos hnone]
      rfl
    · refine ⟨{ id := newTopicId, name := nc.subject,
                color := defaultColors.getD (s.topics.length % defaultColors.length) "",
                icon := defaultIcons.getD (s.topics.length % defaultIcons.length) "",
                createdAt := now, isPublic := none }, ?_, rfl⟩
      unfold addFlashcard
      rw [if_pos hnone]
      exact List.mem_append.mpr (Or.inr (List.mem_singleton.mpr rfl))
  | some t =>
    have hsome : (s.topics.find? (fun t => t.name == nc.subject)).isNone = false := by
      rw [hfind]
      rfl
    have hmem : t ∈ s.topics := List.mem_of_find?_eq_some hfind
    have hname : t.name = nc.subject := by
      have := List.find?_some hfind
      simpa using this
    refine ⟨fun hno => absurd hname (hno t hmem), fun _ => ?_, ?_, ?_⟩
    · unfold addFlashcard
      rw [if_neg (by rw [hsome]; exact Bool.false_ne_true)]
      exact ⟨rfl, rfl⟩
    · unfold addFlashcard
      rw [if_neg (by rw [hsome]; exact Bool.false_ne_true)]
    · refine ⟨t, ?_, hname⟩
      unfold addFlashcard
      rw [if_neg (by rw [hsome]; exact Bool.false_ne_true)]
      exact hmem

/-- Witness for C10: adding a "Math" card to `sampleApp`, which has no
topic of that name. -/
theorem addFlashcard_creates_topic_witness :
    (∀ t ∈ sampleApp.topics, t.name ≠ ncMath.subject) ∧
    ((addFlashcard "7" "8" 5 ncMath sampleApp).topics =
        sampleApp.topics ++
          [{ id := "8", name := ncMath.subject,
             color := defaultColors.getD (sampleApp.topics.length % defaultColors.length) "",
             icon := defaultIcons.getD (sampleApp.topics.length % defaultIcons.length) "",
             createdAt := 5, isPublic := none }] ∧
      (addFlashcard "7" "8" 5 ncMath sampleApp).activeTopic = some "8") :=
  ⟨by decide, (addFlashcard_creates_topic "7" "8" 5 ncMath sampleApp).1 (by decide)⟩
